import Mathlib

/-!
# Verification of the OpenRL selfplay API server core

Shallow embedding of `src/openrl/selfplay/selfplay_api/selfplay_api.py`
(`SelfplayAPIServer` with its three handlers `add_opponent`, `get_opponent`
and `update_skill`).  The server state is the Python list `self.opponents`;
each handler is embedded as an explicit state-passing function returning
`Except PyError (ServerState × Response)`, where `PyError` covers both the
Python exceptions the visible code can raise (`KeyError`, `IndexError`) and
the structured API error kinds named by the specification (`NotFound`,
`InvalidArgument`), so that claims about error kinds can be stated and
settled.

The module `openrl.selfplay.selfplay_api.base_api` (providing
`BaseSelfplayAPIServer`, `OpponentModel`, `OpponentData`, `SkillData` and
`OpponentModel.update_skill`) is not part of the sources; those pieces are
modelled from the specification and are marked as such in their doc
comments.
-/

set_option autoImplicit false

namespace OpenRL

/-- Errors a handler can surface.  `keyError` and `indexError` are the
Python exceptions the visible handler bodies can raise; `notFound` and
`invalidArgument` are the structured error kinds of the specification's
error model (§7), included so claims mentioning them can be stated. -/
inductive PyError where
  | keyError (key : String)
  | indexError
  | notFound
  | invalidArgument
  deriving DecidableEq

deriving instance DecidableEq for Except

/-- Python `d[k]` on a string-keyed dict, modelled as first match in an
association list. -/
def dictGet (d : List (String × String)) (k : String) : Option String :=
  match d with
  | [] => none
  | (k', v) :: rest => if k' = k then some v else dictGet rest k

/-- Python `d[k]`, raising `KeyError` when the key is absent. -/
def dictItem (d : List (String × String)) (k : String) : Except PyError String :=
  match dictGet d k with
  | some v => Except.ok v
  | none => Except.error (PyError.keyError k)

/-- Python list indexing semantics: a non-negative index `i` is valid when
`i < n`; a negative index `i` addresses position `n + i` when `0 ≤ n + i`.
Returns the resolved non-negative position, or `none` (IndexError). -/
def pyIndex (n : Nat) (i : Int) : Option Nat :=
  if 0 ≤ i then
    if i < (n : Int) then some i.toNat else none
  else
    if 0 ≤ (n : Int) + i then some ((n : Int) + i).toNat else none

/-- Python `xs[i]`: resolve the index, raising `IndexError` out of range. -/
def pyGet {α : Type} (xs : List α) (i : Int) : Except PyError α :=
  match pyIndex xs.length i with
  | some j =>
    match xs[j]? with
    | some x => Except.ok x
    | none => Except.error PyError.indexError
  | none => Except.error PyError.indexError

/-- Write through a Python index that has already been checked; out-of-range
writes leave the list unchanged (the handlers only write through indices
they successfully read from first). -/
def pySet {α : Type} (xs : List α) (i : Int) (x : α) : List α :=
  match pyIndex xs.length i with
  | some j => xs.set j x
  | none => xs

/-- Modelled from the spec: the mutable rating state of an opponent, "at
minimum a scalar skill estimate and an uncertainty/variance term" (§3).
The concrete rating type lives in the missing `base_api` module. -/
structure Rating where
  mu : Int
  sigma : Int
  deriving DecidableEq

/-- Modelled from the spec: the configurable default rating prior for newly
registered opponents ("default rating (configurable prior, e.g. mean 0 /
fixed uncertainty)", §4.1). -/
def priorRating : Rating := ⟨0, 1⟩

/-- Modelled from the spec: the `k_factor` configuration knob, "magnitude of
each update" (§4.2). -/
def k_factor : Int := 32

/-- Modelled from the spec: RatingEngine (§4.2), a pure deterministic
function from the two prior ratings and A's score (in half-point units:
`2` = A wins, `1` = draw, `0` = B wins — the outcome representation is an
open implementation choice per §9) to the two updated ratings.  This
instance is an Elo-style rule with a clamped stepwise expected score:
zero-sum, deterministic, and bounded by `k_factor` per update, as the
spec's contract requires.  Its concrete formula lives in the missing
`base_api` module. -/
def ratingEngine (ra rb : Rating) (score : Int) : Rating × Rating :=
  let diff := ra.mu - rb.mu
  let clamped := if diff < -400 then -400 else if 400 < diff then 400 else diff
  let expected := 1 + clamped / 400
  let da := k_factor * (score - expected) / 2
  (⟨ra.mu + da, ra.sigma⟩, ⟨rb.mu - da, rb.sigma⟩)

/-- Modelled from the spec: the per-opponent record held by the registry
(`OpponentModel` of the missing `base_api` module).  Field names follow the
visible call sites: `opponent_id` (the client-supplied label), a string
`opponent_path` artifact reference, the `opponent_info` metadata map, an
`opponent_type` exposed by `get_opponent`, and the mutable rating. -/
structure OpponentModel where
  opponent_id : String
  opponent_path : String
  opponent_info : List (String × String)
  opponent_type : Option String
  rating : Rating
  deriving DecidableEq

/-- Modelled from the spec: the `OpponentModel` constructor as invoked by
the visible `add_opponent` handler — it stores the supplied label, path and
metadata verbatim, derives `opponent_type` from the metadata map, and
starts the rating at the configured prior. -/
def OpponentModel.make (oid path : String)
    (info : List (String × String)) : OpponentModel :=
  ⟨oid, path, info, dictGet info "opponent_type", priorRating⟩

/-- Replace an opponent's rating, leaving every other field unchanged. -/
def OpponentModel.withRating (m : OpponentModel) (r : Rating) : OpponentModel :=
  ⟨m.opponent_id, m.opponent_path, m.opponent_info, m.opponent_type, r⟩

/-- Modelled from the spec: the request body of `POST /add_opponent`
(`OpponentData` of the missing `base_api` module): a client-suggested
label and the metadata map including `opponent_path` (§6). -/
structure OpponentData where
  opponent_id : String
  opponent_info : List (String × String)
  deriving DecidableEq

/-- Modelled from the spec: the request body of `POST /update_skill`
(`SkillData` of the missing `base_api` module): two integer opponent ids
and the match result, represented as A's score in half-point units (§4.1;
§9 notes the outcome representation is an open choice). -/
structure SkillData where
  opponent_id : Int
  other_id : Int
  result : Int
  deriving DecidableEq

/-- The response bodies the three visible handlers return. -/
inductive Response where
  | addMsg (msg : String)
  | opponentInfo (opponent_id opponent_path : String) (opponent_type : Option String)
  | skillMsg (msg : String)
  deriving DecidableEq

/-- The server state: the Python list `self.opponents`.  `base_api` is not
in the sources; per the spec the registry starts empty and all state lives
in this one ordered collection (§3, §9). -/
structure ServerState where
  opponents : List OpponentModel
  deriving DecidableEq

/-- Handler `POST /add_opponent` (selfplay_api.py lines 34-49): reads the
client's `opponent_id` label, looks up `opponent_info["opponent_path"]`
(Python `KeyError` if absent), appends a new `OpponentModel` and returns a
confirmation message naming the label and path. -/
def add_opponent (st : ServerState) (d : OpponentData) :
    Except PyError (ServerState × Response) :=
  match dictItem d.opponent_info "opponent_path" with
  | Except.error e => Except.error e
  | Except.ok path =>
    Except.ok
      (⟨st.opponents ++ [OpponentModel.make d.opponent_id path d.opponent_info]⟩,
        Response.addMsg
          ("Opponent " ++ d.opponent_id ++ " added with model path: " ++ path))

/-- Handler `GET /get_opponent` (selfplay_api.py lines 51-57): returns the
`opponent_id`, `opponent_path` and `opponent_type` of `self.opponents[-1]`
(Python `IndexError` when the list is empty).  The state is untouched. -/
def get_opponent (st : ServerState) :
    Except PyError (ServerState × Response) :=
  match pyGet st.opponents (-1) with
  | Except.error e => Except.error e
  | Except.ok last =>
    Except.ok (st, Response.opponentInfo last.opponent_id last.opponent_path
      last.opponent_type)

/-- Handler `POST /update_skill` (selfplay_api.py lines 59-64):
`self.opponents[data.opponent_id].update_skill(self.opponents[data.other_id],
data.result)` followed by a fixed confirmation message.  Both list accesses
use raw Python indexing (`IndexError` out of range; negative indices count
from the end).  `OpponentModel.update_skill` itself lives in the missing
`base_api` module and is modelled from the spec: it computes both updated
ratings via the RatingEngine and writes both back (§4.1); the write to the
first participant happens before the write to the second, so when the two
indices coincide the second write is the one that persists. -/
def update_skill (st : ServerState) (d : SkillData) :
    Except PyError (ServerState × Response) :=
  match pyGet st.opponents d.opponent_id with
  | Except.error e => Except.error e
  | Except.ok a =>
    match pyGet st.opponents d.other_id with
    | Except.error e => Except.error e
    | Except.ok b =>
      let p := ratingEngine a.rating b.rating d.result
      let ops1 := pySet st.opponents d.opponent_id (a.withRating p.1)
      let ops2 := pySet ops1 d.other_id (b.withRating p.2)
      Except.ok (⟨ops2⟩, Response.skillMsg "Skill updated.")

/-- Run a sequence of `add_opponent` requests, stopping at the first
failure. -/
def runRegistrations (st : ServerState) :
    List OpponentData → Except PyError ServerState
  | [] => Except.ok st
  | d :: ds =>
    match add_opponent st d with
    | Except.error e => Except.error e
    | Except.ok p => runRegistrations p.1 ds

/-! ## Basic lemmas about the Python primitives -/

theorem pyIndex_lt {n : Nat} {i : Int} {j : Nat} (h : pyIndex n i = some j) :
    j < n := by
  unfold pyIndex at h
  split at h <;> split at h <;> simp_all <;> omega

theorem pyIndex_nonneg {n : Nat} {i : Int} (h0 : 0 ≤ i) (h1 : i < (n : Int)) :
    pyIndex n i = some i.toNat := by
  unfold pyIndex
  simp [h0, h1]

theorem pyIndex_neg {n : Nat} {i : Int} (h0 : i < 0) (h1 : -(n : Int) ≤ i) :
    pyIndex n i = some ((n : Int) + i).toNat := by
  unfold pyIndex
  rw [if_neg (by omega), if_pos (by omega)]

theorem pyIndex_total {n : Nat} {i : Int} (h0 : -(n : Int) ≤ i)
    (h1 : i < (n : Int)) : ∃ j, pyIndex n i = some j := by
  rcases lt_or_le i 0 with hi | hi
  · exact ⟨_, pyIndex_neg hi h0⟩
  · exact ⟨_, pyIndex_nonneg hi h1⟩

theorem pyGet_of_index {α : Type} {xs : List α} {i : Int} {j : Nat}
    (h : pyIndex xs.length i = some j) :
    ∃ x, pyGet xs i = Except.ok x ∧ xs[j]? = some x := by
  have hj := pyIndex_lt h
  refine ⟨xs[j], ?_, List.getElem?_eq_getElem hj⟩
  unfold pyGet
  simp [h, List.getElem?_eq_getElem hj]

theorem pyGet_of_index_none {α : Type} {xs : List α} {i : Int}
    (h : pyIndex xs.length i = none) :
    pyGet xs i = Except.error PyError.indexError := by
  unfold pyGet
  rw [h]

theorem pyGet_ok {α : Type} {xs : List α} {i : Int} {x : α}
    (h : pyGet xs i = Except.ok x) :
    ∃ j, pyIndex xs.length i = some j ∧ xs[j]? = some x := by
  rcases hidx : pyIndex xs.length i with _ | j
  · rw [pyGet_of_index_none hidx] at h
    exact absurd h (by simp)
  · obtain ⟨y, hy, hy'⟩ := pyGet_of_index hidx
    rw [hy] at h
    injection h with h
    exact ⟨j, rfl, by rw [hy', h]⟩

theorem pySet_of_index {α : Type} {xs : List α} {i : Int} {j : Nat} (x : α)
    (h : pyIndex xs.length i = some j) : pySet xs i x = xs.set j x := by
  unfold pySet
  rw [h]

theorem pySet_length {α : Type} (xs : List α) (i : Int) (x : α) :
    (pySet xs i x).length = xs.length := by
  unfold pySet
  split <;> simp

/-! ## Equation lemmas for the handlers -/

theorem add_opponent_eq (st : ServerState) (d : OpponentData) :
    add_opponent st d =
      match dictGet d.opponent_info "opponent_path" with
      | none => Except.error (PyError.keyError "opponent_path")
      | some path =>
        Except.ok
          (⟨st.opponents ++
              [OpponentModel.make d.opponent_id path d.opponent_info]⟩,
            Response.addMsg
              ("Opponent " ++ d.opponent_id ++ " added with model path: "
                ++ path)) := by
  unfold add_opponent dictItem
  cases dictGet d.opponent_info "opponent_path" <;> rfl

theorem add_opponent_ok {st st' : ServerState} {d : OpponentData}
    {r : Response} (h : add_opponent st d = Except.ok (st', r)) :
    ∃ path, dictGet d.opponent_info "opponent_path" = some path ∧
      st'.opponents =
        st.opponents ++ [OpponentModel.make d.opponent_id path d.opponent_info] := by
  rw [add_opponent_eq] at h
  split at h
  · exact absurd h (by simp)
  · rename_i path hd
    refine ⟨path, hd, ?_⟩
    injection h with h
    rw [Prod.mk.injEq] at h
    rw [← h.1]

theorem get_opponent_nonempty {st : ServerState} {m : OpponentModel}
    (h : st.opponents.getLast? = some m) :
    get_opponent st =
      Except.ok (st, Response.opponentInfo m.opponent_id m.opponent_path
        m.opponent_type) := by
  have hn : st.opponents ≠ [] := by
    intro he
    rw [he] at h
    exact absurd h (by simp)
  have hlen : 0 < st.opponents.length := List.length_pos.mpr hn
  have hidx : pyIndex st.opponents.length (-1) =
      some ((st.opponents.length : Int) + (-1)).toNat := by
    exact pyIndex_neg (by omega) (by omega)
  obtain ⟨x, hx, hx'⟩ := pyGet_of_index hidx
  have hxm : x = m := by
    have h1 : ((st.opponents.length : Int) + (-1)).toNat =
        st.opponents.length - 1 := by omega
    rw [h1] at hx'
    rw [List.getLast?_eq_getElem?] at h
    rw [hx'] at h
    simpa using h
  rw [hxm] at hx
  simp [get_opponent, hx]

theorem update_skill_err_left {st : ServerState} {d : SkillData}
    (h : pyIndex st.opponents.length d.opponent_id = none) :
    update_skill st d = Except.error PyError.indexError := by
  unfold update_skill
  rw [pyGet_of_index_none h]

theorem update_skill_err_right {st : ServerState} {d : SkillData} {ja : Nat}
    (ha : pyIndex st.opponents.length d.opponent_id = some ja)
    (h : pyIndex st.opponents.length d.other_id = none) :
    update_skill st d = Except.error PyError.indexError := by
  obtain ⟨a, hga, _⟩ := pyGet_of_index ha
  unfold update_skill
  rw [hga, pyGet_of_index_none h]

theorem update_skill_of_pyGet {st : ServerState} {d : SkillData}
    {a b : OpponentModel}
    (hga : pyGet st.opponents d.opponent_id = Except.ok a)
    (hgb : pyGet st.opponents d.other_id = Except.ok b) :
    update_skill st d = Except.ok
      (⟨pySet
          (pySet st.opponents d.opponent_id
            (a.withRating (ratingEngine a.rating b.rating d.result).1))
          d.other_id
          (b.withRating (ratingEngine a.rating b.rating d.result).2)⟩,
        Response.skillMsg "Skill updated.") := by
  unfold update_skill
  rw [hga, hgb]

theorem update_skill_ok_of_index {st : ServerState} {d : SkillData}
    {ja jb : Nat}
    (ha : pyIndex st.opponents.length d.opponent_id = some ja)
    (hb : pyIndex st.opponents.length d.other_id = some jb) :
    ∃ a b, st.opponents[ja]? = some a ∧ st.opponents[jb]? = some b ∧
      update_skill st d = Except.ok
        (⟨(st.opponents.set ja
              (a.withRating (ratingEngine a.rating b.rating d.result).1)).set
            jb (b.withRating (ratingEngine a.rating b.rating d.result).2)⟩,
          Response.skillMsg "Skill updated.") := by
  obtain ⟨a, hga, hga'⟩ := pyGet_of_index ha
  obtain ⟨b, hgb, hgb'⟩ := pyGet_of_index hb
  refine ⟨a, b, hga', hgb', ?_⟩
  rw [update_skill_of_pyGet hga hgb]
  rw [pySet_of_index _ ha]
  have hb' : pyIndex
      (st.opponents.set ja
        (a.withRating (ratingEngine a.rating b.rating d.result).1)).length
      d.other_id = some jb := by
    rw [List.length_set]
    exact hb
  rw [pySet_of_index _ hb']

/-! ## Structure of registration sequences -/

theorem runRegistrations_ok {ds : List OpponentData} {st st' : ServerState}
    (h : runRegistrations st ds = Except.ok st') :
    st'.opponents.length = st.opponents.length + ds.length ∧
    (∀ i, i < st.opponents.length → st'.opponents[i]? = st.opponents[i]?) ∧
    (∀ i, i < ds.length →
      ∃ d path, ds[i]? = some d ∧
        dictGet d.opponent_info "opponent_path" = some path ∧
        st'.opponents[st.opponents.length + i]? =
          some (OpponentModel.make d.opponent_id path d.opponent_info)) := by
  induction ds generalizing st with
  | nil =>
    unfold runRegistrations at h
    injection h with h
    subst h
    exact ⟨by simp, fun i _ => rfl, fun i hi => absurd hi (by simp)⟩
  | cons d ds ih =>
    unfold runRegistrations at h
    split at h
    · exact absurd h (by simp)
    · rename_i p hp
      obtain ⟨path, hpath, hops⟩ :=
        add_opponent_ok (show add_opponent st d = Except.ok (p.1, p.2) from hp)
      obtain ⟨h1, h2, h3⟩ := ih h
      have hplen : p.1.opponents.length = st.opponents.length + 1 := by
        rw [hops]
        simp
      refine ⟨?_, ?_, ?_⟩
      · rw [h1, hplen]
        simp [Nat.add_assoc, Nat.add_comm 1]
      · intro i hi
        rw [h2 i (by omega), hops]
        simp [List.getElem?_append, hi]
      · intro i hi
        cases i with
        | zero =>
          refine ⟨d, path, by simp, hpath, ?_⟩
          have := h2 st.opponents.length (by omega)
          rw [Nat.add_zero, this, hops]
          exact List.getElem?_concat_length st.opponents _
        | succ i' =>
          obtain ⟨d', path', hd', hpath', hrec⟩ := h3 i' (by
            simp at hi
            omega)
          refine ⟨d', path', by simpa using hd', hpath', ?_⟩
          rw [show st.opponents.length + (i' + 1) =
            p.1.opponents.length + i' by omega]
          exact hrec

/-! ## Concrete fixtures and observation helpers -/

/-- A one-opponent registry, as produced by a single successful
`add_opponent`. -/
def oneOpponentState : ServerState :=
  ⟨[OpponentModel.make "a" "p" [("opponent_path", "p")]]⟩

/-- A two-opponent registry. -/
def twoOpponentState : ServerState :=
  ⟨[OpponentModel.make "a" "p" [], OpponentModel.make "b" "q" []]⟩

/-- A three-opponent registry. -/
def threeOpponentState : ServerState :=
  ⟨[OpponentModel.make "a" "p" [], OpponentModel.make "b" "q" [],
    OpponentModel.make "c" "r" []]⟩

/-- A two-opponent registry with non-default ratings. -/
def ratedState : ServerState :=
  ⟨[⟨"a", "p", [], none, ⟨100, 1⟩⟩, ⟨"b", "q", [], none, ⟨50, 1⟩⟩]⟩

/-- The list of ratings held by the registry in a handler result, when the
call succeeded. -/
def ratingsOf (e : Except PyError (ServerState × Response)) :
    Option (List Rating) :=
  e.toOption.map (fun p => p.1.opponents.map OpponentModel.rating)

/-- The response body in a handler result, when the call succeeded. -/
def responseOf (e : Except PyError (ServerState × Response)) :
    Option Response :=
  e.toOption.map Prod.snd

/-! ## Claim C1 -/

/-- C1: counterexample.  The claim says the id stored in each record equals
its positional index and that the registry assigns ids `0..n-1`.  On the
code, `add_opponent` stores the client-supplied label verbatim: one
successful register call with label `"ckpt_001"` yields a registry whose
single record (position 0) stores id `"ckpt_001"`, not the positional
index `0`. -/
theorem c1_counterexample :
    add_opponent ⟨[]⟩ ⟨"ckpt_001", [("opponent_path", "p1")]⟩ =
      Except.ok (⟨[OpponentModel.make "ckpt_001" "p1"
          [("opponent_path", "p1")]]⟩,
        Response.addMsg "Opponent ckpt_001 added with model path: p1") ∧
    (OpponentModel.make "ckpt_001" "p1"
      [("opponent_path", "p1")]).opponent_id = "ckpt_001" ∧
    "ckpt_001" ≠ "0" := by
  refine ⟨by rfl, rfl, by decide⟩

/-- C1 (amended): the registry assigns no ids.  After any sequence of
successful `add_opponent` calls starting from the empty registry, the
registry holds exactly one record per call, the i-th call's record sits at
positional index i (so positions are dense `0..n-1` in issuance order),
and each record stores the client-supplied `opponent_id` label of its call
verbatim — which need not equal the positional index. -/
theorem c1_registration_ids (ds : List OpponentData) (st : ServerState)
    (h : runRegistrations ⟨[]⟩ ds = Except.ok st) :
    st.opponents.length = ds.length ∧
    ∀ i, i < ds.length →
      (st.opponents[i]?).map OpponentModel.opponent_id =
        (ds[i]?).map OpponentData.opponent_id := by
  obtain ⟨h1, _, h3⟩ := runRegistrations_ok h
  refine ⟨by simpa using h1, ?_⟩
  intro i hi
  obtain ⟨d, path, hd, _, hrec⟩ := h3 i hi
  simp only [List.length_nil, Nat.zero_add] at hrec
  rw [hrec, hd]
  rfl

/-- C1 (amended) witness: one register call with label `"a"` gives a
one-record registry whose record at position 0 stores label `"a"`. -/
theorem c1_registration_ids_witness :
    ((⟨[OpponentModel.make "a" "p" [("opponent_path", "p")]]⟩ :
        ServerState).opponents[0]?).map OpponentModel.opponent_id =
      some "a" := by
  have h := c1_registration_ids [⟨"a", [("opponent_path", "p")]⟩]
    ⟨[OpponentModel.make "a" "p" [("opponent_path", "p")]]⟩ (by rfl)
  simpa using h.2 0 (by decide)

/-! ## Claim C2 -/

/-- C2: counterexample.  The claim says `get_opponent` on an empty registry
fails with `NotFound`; on the code it raises a raw Python `IndexError`
(from `self.opponents[-1]`), which is not the structured `NotFound`
error. -/
theorem c2_counterexample :
    get_opponent ⟨[]⟩ = Except.error PyError.indexError ∧
    PyError.indexError ≠ PyError.notFound := by
  refine ⟨by rfl, by decide⟩

/-- C2 (amended): `get_opponent` on an empty registry always fails, but
with a raw `IndexError` (an unhandled exception surfaced as an internal
error) rather than a structured `NotFound`; on any non-empty registry it
always succeeds. -/
theorem c2_select_empty_vs_nonempty (st : ServerState) :
    (st.opponents = [] → get_opponent st = Except.error PyError.indexError) ∧
    (st.opponents ≠ [] → (get_opponent st).isOk = true) := by
  constructor
  · intro he
    have h0 : st.opponents.length = 0 := by rw [he]; rfl
    have hidx : pyIndex st.opponents.length (-1) = none := by
      rw [h0]
      decide
    unfold get_opponent
    rw [pyGet_of_index_none hidx]
  · intro hne
    obtain ⟨m, hm⟩ := Option.isSome_iff_exists.mp
      (List.getLast?_isSome.mpr hne)
    rw [get_opponent_nonempty hm]
    rfl

/-- C2 (amended) witness: the empty registry yields `IndexError`, the
one-opponent registry yields a successful selection. -/
theorem c2_select_empty_vs_nonempty_witness :
    get_opponent ⟨[]⟩ = Except.error PyError.indexError ∧
    (get_opponent oneOpponentState).isOk = true := by
  refine ⟨(c2_select_empty_vs_nonempty ⟨[]⟩).1 rfl, ?_⟩
  exact (c2_select_empty_vs_nonempty oneOpponentState).2 (List.cons_ne_nil _ _)

/-! ## Claim C3 -/

/-- C3: confirmed.  After any successful registration sequence whose final
request is `d` (so the registry holds records at positions `0..k` with
`k = ds.length`), `get_opponent` returns the data of the most recently
registered opponent: the record at position `k`, which stores `d`'s label,
path and type. -/
theorem c3_select_most_recent (ds : List OpponentData) (d : OpponentData)
    (st : ServerState)
    (h : runRegistrations ⟨[]⟩ (ds ++ [d]) = Except.ok st) :
    ∃ path, dictGet d.opponent_info "opponent_path" = some path ∧
      st.opponents.length = ds.length + 1 ∧
      st.opponents[ds.length]? =
        some (OpponentModel.make d.opponent_id path d.opponent_info) ∧
      get_opponent st = Except.ok (st,
        Response.opponentInfo d.opponent_id path
          (dictGet d.opponent_info "opponent_type")) := by
  obtain ⟨h1, _, h3⟩ := runRegistrations_ok h
  simp only [List.length_nil, Nat.zero_add, List.length_append,
    List.length_cons] at h1
  obtain ⟨d', path, hd', hpath, hrec⟩ := h3 ds.length (by simp)
  have hdd : d' = d := by
    rw [List.getElem?_concat_length] at hd'
    simpa using hd'.symm
  subst hdd
  simp only [List.length_nil, Nat.zero_add] at hrec
  refine ⟨path, hpath, by simpa using h1, hrec, ?_⟩
  have hlast : st.opponents.getLast? =
      some (OpponentModel.make d'.opponent_id path d'.opponent_info) := by
    rw [List.getLast?_eq_getElem?]
    have hl : st.opponents.length - 1 = ds.length := by omega
    rw [hl]
    exact hrec
  rw [get_opponent_nonempty hlast]
  simp [OpponentModel.make]

/-- C3 witness: registering `"a"` then `"b"` and selecting returns `"b"`'s
data. -/
theorem c3_select_most_recent_witness :
    get_opponent ⟨[OpponentModel.make "a" "pa" [("opponent_path", "pa")],
        OpponentModel.make "b" "pb" [("opponent_path", "pb")]]⟩ =
      Except.ok (⟨[OpponentModel.make "a" "pa" [("opponent_path", "pa")],
          OpponentModel.make "b" "pb" [("opponent_path", "pb")]]⟩,
        Response.opponentInfo "b" "pb" none) := by
  have h := c3_select_most_recent [⟨"a", [("opponent_path", "pa")]⟩]
    ⟨"b", [("opponent_path", "pb")]⟩
    ⟨[OpponentModel.make "a" "pa" [("opponent_path", "pa")],
      OpponentModel.make "b" "pb" [("opponent_path", "pb")]]⟩ (by rfl)
  obtain ⟨path, hpath, _, _, hsel⟩ := h
  have hp : path = "pb" := by
    simpa [dictGet] using hpath.symm
  rw [hp] at hsel
  simpa [dictGet] using hsel

/-! ## Claim C4 -/

/-- C4: counterexample.  The claim says `update_skill` rejects equal ids
with `InvalidArgument` (with no rating modified) and unknown ids with
`NotFound`.  On the code there is no validation: with equal ids `(0, 0)`
on a one-opponent registry the call succeeds and the record's rating is
modified (from the prior `0` to `-16`), and an out-of-range id `5` raises
a raw `IndexError`, not `NotFound`. -/
theorem c4_counterexample :
    (update_skill oneOpponentState ⟨0, 0, 2⟩).isOk = true ∧
    ratingsOf (update_skill oneOpponentState ⟨0, 0, 2⟩) = some [⟨-16, 1⟩] ∧
    oneOpponentState.opponents.map OpponentModel.rating = [⟨0, 1⟩] ∧
    update_skill oneOpponentState ⟨5, 0, 2⟩ =
      Except.error PyError.indexError ∧
    PyError.indexError ≠ PyError.notFound := by
  refine ⟨by decide, by decide, by decide, by decide, by decide⟩

/-- C4 (amended): `update_skill` validates nothing.  If either supplied id
is outside Python's index range for the current population, the call
raises a raw `IndexError` (not `NotFound`) — and since both reads precede
both writes, no rating is modified.  Equal ids are not rejected: whenever
both ids resolve (equal or not), the call succeeds, with no
`InvalidArgument` check. -/
theorem c4_update_skill_validation (st : ServerState) (d : SkillData) :
    (pyIndex st.opponents.length d.opponent_id = none →
      update_skill st d = Except.error PyError.indexError) ∧
    (pyIndex st.opponents.length d.other_id = none →
      update_skill st d = Except.error PyError.indexError) ∧
    (∀ ja jb, pyIndex st.opponents.length d.opponent_id = some ja →
      pyIndex st.opponents.length d.other_id = some jb →
      (update_skill st d).isOk = true) := by
  refine ⟨update_skill_err_left, ?_, ?_⟩
  · intro hb
    cases hidx : pyIndex st.opponents.length d.opponent_id with
    | none => exact update_skill_err_left hidx
    | some ja => exact update_skill_err_right hidx hb
  · intro ja jb ha hb
    obtain ⟨a, b, _, _, hok⟩ := update_skill_ok_of_index ha hb
    rw [hok]
    rfl

/-- C4 (amended) witness: on the one-opponent registry, id 5 is out of
range so the call fails with `IndexError`, and the equal pair `(0, 0)`
resolves so the call succeeds. -/
theorem c4_update_skill_validation_witness :
    update_skill oneOpponentState ⟨5, 0, 2⟩ =
      Except.error PyError.indexError ∧
    (update_skill oneOpponentState ⟨0, 0, 2⟩).isOk = true := by
  refine ⟨(c4_update_skill_validation oneOpponentState ⟨5, 0, 2⟩).1
    (by decide), ?_⟩
  exact (c4_update_skill_validation oneOpponentState ⟨0, 0, 2⟩).2.2 0 0
    (by decide) (by decide)

/-! ## Claim C5 -/

/-- C5: counterexample.  The claim says `add_opponent` fails with
`InvalidArgument` when `opponent_path` is empty or missing, with no record
added.  On the code an empty-string path is accepted — the call succeeds
and a record is appended — and a missing path raises a raw `KeyError`
(from `opponent_info["opponent_path"]`), not `InvalidArgument`. -/
theorem c5_counterexample :
    add_opponent ⟨[]⟩ ⟨"a", [("opponent_path", "")]⟩ =
      Except.ok (⟨[OpponentModel.make "a" "" [("opponent_path", "")]]⟩,
        Response.addMsg "Opponent a added with model path: ") ∧
    add_opponent ⟨[]⟩ ⟨"a", []⟩ =
      Except.error (PyError.keyError "opponent_path") ∧
    PyError.keyError "opponent_path" ≠ PyError.invalidArgument := by
  refine ⟨by rfl, by rfl, by decide⟩

/-- C5 (amended): when the `opponent_path` key is missing from
`opponent_info`, `add_opponent` fails with a raw `KeyError` (not
`InvalidArgument`) and no record is added; when the key is present —
including with the empty string as value — the call succeeds and appends
one record storing that path. -/
theorem c5_add_opponent_path (st : ServerState) (d : OpponentData) :
    (dictGet d.opponent_info "opponent_path" = none →
      add_opponent st d = Except.error (PyError.keyError "opponent_path")) ∧
    (∀ path, dictGet d.opponent_info "opponent_path" = some path →
      add_opponent st d = Except.ok
        (⟨st.opponents ++
            [OpponentModel.make d.opponent_id path d.opponent_info]⟩,
          Response.addMsg ("Opponent " ++ d.opponent_id ++
            " added with model path: " ++ path))) := by
  constructor
  · intro hp
    rw [add_opponent_eq, hp]
  · intro path hp
    rw [add_opponent_eq, hp]

/-- C5 (amended) witness: a missing path key fails with `KeyError`; an
empty-string path succeeds and appends the record. -/
theorem c5_add_opponent_path_witness :
    add_opponent ⟨[]⟩ ⟨"a", []⟩ =
      Except.error (PyError.keyError "opponent_path") ∧
    add_opponent ⟨[]⟩ ⟨"a", [("opponent_path", "")]⟩ =
      Except.ok (⟨[OpponentModel.make "a" "" [("opponent_path", "")]]⟩,
        Response.addMsg ("Opponent " ++ "a" ++
          " added with model path: " ++ "")) := by
  refine ⟨(c5_add_opponent_path ⟨[]⟩ ⟨"a", []⟩).1 (by rfl), ?_⟩
  exact (c5_add_opponent_path ⟨[]⟩ ⟨"a", [("opponent_path", "")]⟩).2 ""
    (by rfl)

/-! ## Claim C6 -/

/-- C6: confirmed.  Every successful `add_opponent` call grows the
population by exactly one and leaves every previously existing record —
hence its id, artifact reference, metadata and rating — unchanged at its
position. -/
theorem c6_register_frame (st st' : ServerState) (d : OpponentData)
    (r : Response) (h : add_opponent st d = Except.ok (st', r)) :
    st'.opponents.length = st.opponents.length + 1 ∧
    ∀ i, i < st.opponents.length → st'.opponents[i]? = st.opponents[i]? := by
  obtain ⟨path, _, hops⟩ := add_opponent_ok h
  constructor
  · rw [hops]
    simp
  · intro i hi
    rw [hops]
    simp [List.getElem?_append, hi]

/-- C6 witness: registering `"b"` on the one-opponent registry grows it to
two records and leaves record 0 unchanged. -/
theorem c6_register_frame_witness :
    (⟨oneOpponentState.opponents ++
        [OpponentModel.make "b" "q" [("opponent_path", "q")]]⟩ :
      ServerState).opponents.length = oneOpponentState.opponents.length + 1 ∧
    (⟨oneOpponentState.opponents ++
        [OpponentModel.make "b" "q" [("opponent_path", "q")]]⟩ :
      ServerState).opponents[0]? = oneOpponentState.opponents[0]? := by
  have h := c6_register_frame oneOpponentState
    ⟨oneOpponentState.opponents ++
      [OpponentModel.make "b" "q" [("opponent_path", "q")]]⟩
    ⟨"b", [("opponent_path", "q")]⟩
    (Response.addMsg "Opponent b added with model path: q") (by rfl)
  exact ⟨h.1, h.2 0 (by decide)⟩

/-! ## Claim C7 -/

/-- C7: counterexample.  The claim says a successful `update_skill` returns
the two updated rating states in its response.  On the code the response
is the fixed dictionary `{"msg": "Skill updated."}`: two registries whose
ratings differ (prior ratings vs 100/50) produce different updated
ratings but the very same response, so the response carries no rating
state. -/
theorem c7_counterexample :
    responseOf (update_skill twoOpponentState ⟨0, 1, 2⟩) =
      some (Response.skillMsg "Skill updated.") ∧
    responseOf (update_skill ratedState ⟨0, 1, 2⟩) =
      some (Response.skillMsg "Skill updated.") ∧
    ratingsOf (update_skill twoOpponentState ⟨0, 1, 2⟩) ≠
      ratingsOf (update_skill ratedState ⟨0, 1, 2⟩) := by
  refine ⟨by decide, by decide, by decide⟩

/-- C7 (amended): a successful `update_skill` writes both updated ratings
to the registry but returns only the fixed confirmation message
`"Skill updated."`; the updated rating states are not part of the
response. -/
theorem c7_update_skill_response (st st' : ServerState) (d : SkillData)
    (r : Response) (h : update_skill st d = Except.ok (st', r)) :
    r = Response.skillMsg "Skill updated." := by
  cases hidx : pyIndex st.opponents.length d.opponent_id with
  | none =>
    rw [update_skill_err_left hidx] at h
    exact absurd h (by simp)
  | some ja =>
    cases hbidx : pyIndex st.opponents.length d.other_id with
    | none =>
      rw [update_skill_err_right hidx hbidx] at h
      exact absurd h (by simp)
    | some jb =>
      obtain ⟨a, b, _, _, hok⟩ := update_skill_ok_of_index hidx hbidx
      rw [hok] at h
      injection h with h
      rw [Prod.mk.injEq] at h
      exact h.2.symm

/-- C7 (amended) witness: the concrete successful call on the two-opponent
registry returns exactly the fixed message. -/
theorem c7_update_skill_response_witness :
    Response.skillMsg "Skill updated." =
      Response.skillMsg "Skill updated." := by
  have h := c7_update_skill_response twoOpponentState
    ⟨[OpponentModel.make "a" "p" [] |>.withRating ⟨16, 1⟩,
      OpponentModel.make "b" "q" [] |>.withRating ⟨-16, 1⟩]⟩
    ⟨0, 1, 2⟩ (Response.skillMsg "Skill updated.") (by decide)
  exact h ▸ rfl

/-! ## Claim C8 -/

/-- C8: confirmed.  Ratings are only ever modified by `update_skill` calls
that resolve to the opponent: a successful `add_opponent` leaves every
existing record's rating unchanged and starts the new record at the prior;
a successful `get_opponent` leaves the state untouched; and a successful
`update_skill` leaves every record unchanged except the (at most two)
positions its two ids resolve to. -/
theorem c8_rating_mutation_paths :
    (∀ st st' d r, add_opponent st d = Except.ok (st', r) →
      (∀ i, i < st.opponents.length →
        (st'.opponents[i]?).map OpponentModel.rating =
          (st.opponents[i]?).map OpponentModel.rating) ∧
      (st'.opponents[st.opponents.length]?).map OpponentModel.rating =
        some priorRating) ∧
    (∀ st st' r, get_opponent st = Except.ok (st', r) → st' = st) ∧
    (∀ st st' d r, update_skill st d = Except.ok (st', r) →
      ∀ j, pyIndex st.opponents.length d.opponent_id ≠ some j →
        pyIndex st.opponents.length d.other_id ≠ some j →
        st'.opponents[j]? = st.opponents[j]?) := by
  refine ⟨?_, ?_, ?_⟩
  · intro st st' d r h
    obtain ⟨path, _, hops⟩ := add_opponent_ok h
    constructor
    · intro i hi
      rw [hops]
      simp [List.getElem?_append, hi]
    · rw [hops, List.getElem?_concat_length]
      rfl
  · intro st st' r h
    unfold get_opponent at h
    split at h
    · exact absurd h (by simp)
    · injection h with h
      rw [Prod.mk.injEq] at h
      exact h.1.symm
  · intro st st' d r h j hja hjb
    cases hidx : pyIndex st.opponents.length d.opponent_id with
    | none =>
      rw [update_skill_err_left hidx] at h
      exact absurd h (by simp)
    | some ja =>
      cases hbidx : pyIndex st.opponents.length d.other_id with
      | none =>
        rw [update_skill_err_right hidx hbidx] at h
        exact absurd h (by simp)
      | some jb =>
        obtain ⟨a, b, _, _, hok⟩ := update_skill_ok_of_index hidx hbidx
        rw [hok] at h
        injection h with h
        rw [Prod.mk.injEq] at h
        rw [← h.1]
        have hj1 : ja ≠ j := fun he => hja (he ▸ hidx)
        have hj2 : jb ≠ j := fun he => hjb (he ▸ hbidx)
        exact (List.getElem?_set_ne hj2).trans (List.getElem?_set_ne hj1)

/-- C8 witness: on the three-opponent registry, a successful `update_skill`
naming opponents 0 and 1 leaves record 2 untouched. -/
theorem c8_rating_mutation_paths_witness :
    (⟨[(OpponentModel.make "a" "p" []).withRating ⟨16, 1⟩,
        (OpponentModel.make "b" "q" []).withRating ⟨-16, 1⟩,
        OpponentModel.make "c" "r" []]⟩ : ServerState).opponents[2]? =
      threeOpponentState.opponents[2]? := by
  exact c8_rating_mutation_paths.2.2 threeOpponentState
    ⟨[(OpponentModel.make "a" "p" []).withRating ⟨16, 1⟩,
      (OpponentModel.make "b" "q" []).withRating ⟨-16, 1⟩,
      OpponentModel.make "c" "r" []]⟩
    ⟨0, 1, 2⟩ (Response.skillMsg "Skill updated.") (by decide) 2
    (by decide) (by decide)

/-! ## Claim C10 -/

/-- C10: confirmed.  On a non-empty registry of size `n`, an
`update_skill` call in which `opponent_id` or `other_id` is a negative
integer in `[-n, -1]` does not fail, provided both ids are in Python's
index range `[-n, n-1]`: each negative id resolves by Python negative
indexing to position `n + id` (so `-1` resolves to the most recently
appended record), every resolved position holds an existing record, the
call succeeds, and the resolved records' skills are updated — the record
at the position the second id resolves to always receives the engine's
updated rating for participant B (also when the two ids resolve to the
same position: the source writes participant A's rating first and
participant B's second, so the second write persists there), and when the
two resolved positions differ the record at the first also receives the
engine's updated rating for participant A. -/
theorem c10_negative_indexing (st : ServerState) (d : SkillData)
    (_hneg : d.opponent_id < 0 ∨ d.other_id < 0)
    (ha1 : -(st.opponents.length : Int) ≤ d.opponent_id)
    (ha2 : d.opponent_id < (st.opponents.length : Int))
    (hb1 : -(st.opponents.length : Int) ≤ d.other_id)
    (hb2 : d.other_id < (st.opponents.length : Int)) :
    ((d.opponent_id < 0 → pyIndex st.opponents.length d.opponent_id =
        some ((st.opponents.length : Int) + d.opponent_id).toNat) ∧
      (d.other_id < 0 → pyIndex st.opponents.length d.other_id =
        some ((st.opponents.length : Int) + d.other_id).toNat)) ∧
    (∀ j, (pyIndex st.opponents.length d.opponent_id = some j ∨
        pyIndex st.opponents.length d.other_id = some j) →
      ∃ a, st.opponents[j]? = some a) ∧
    (update_skill st d).isOk = true ∧
    (∀ ja jb a b, pyIndex st.opponents.length d.opponent_id = some ja →
      pyIndex st.opponents.length d.other_id = some jb →
      st.opponents[ja]? = some a → st.opponents[jb]? = some b →
      ∀ st' r, update_skill st d = Except.ok (st', r) →
        st'.opponents[jb]? = some (b.withRating
          (ratingEngine a.rating b.rating d.result).2) ∧
        (ja ≠ jb → st'.opponents[ja]? = some (a.withRating
          (ratingEngine a.rating b.rating d.result).1))) := by
  obtain ⟨ja0, hja0⟩ := pyIndex_total ha1 ha2
  obtain ⟨jb0, hjb0⟩ := pyIndex_total hb1 hb2
  refine ⟨⟨fun hn => pyIndex_neg hn ha1, fun hn => pyIndex_neg hn hb1⟩,
    ?_, ?_, ?_⟩
  · intro j hj
    cases hj with
    | inl hj =>
      obtain ⟨x, _, hx⟩ := pyGet_of_index hj
      exact ⟨x, hx⟩
    | inr hj =>
      obtain ⟨x, _, hx⟩ := pyGet_of_index hj
      exact ⟨x, hx⟩
  · obtain ⟨a, b, _, _, hok⟩ := update_skill_ok_of_index hja0 hjb0
    rw [hok]
    rfl
  · intro ja jb a b hja hjb hga hgb st' r h
    obtain ⟨a', b', hga', hgb', hok⟩ := update_skill_ok_of_index hja hjb
    have haa : a' = a := by
      rw [hga'] at hga
      simpa using hga
    have hbb : b' = b := by
      rw [hgb'] at hgb
      simpa using hgb
    subst haa
    subst hbb
    rw [hok] at h
    injection h with h
    rw [Prod.mk.injEq] at h
    rw [← h.1]
    have hjalt := pyIndex_lt hja
    have hjblt := pyIndex_lt hjb
    constructor
    · rw [List.getElem?_set_self]
      simp [hjblt]
    · intro hne
      rw [List.getElem?_set_ne hne.symm, List.getElem?_set_self]
      simp [hjalt]

/-- C10 witness: on the two-opponent registry, a call with `opponent_id`
0 and `other_id` `-1` has its negative id resolve to position 1 (the most
recently appended record) and succeeds. -/
theorem c10_negative_indexing_witness :
    pyIndex twoOpponentState.opponents.length (-1) =
      some ((twoOpponentState.opponents.length : Int) + (-1)).toNat ∧
    (update_skill twoOpponentState ⟨0, -1, 2⟩).isOk = true := by
  have h := c10_negative_indexing twoOpponentState ⟨0, -1, 2⟩
    (Or.inr (by decide)) (by decide) (by decide) (by decide) (by decide)
  exact ⟨h.1.2 (by decide), h.2.2.1⟩

end OpenRL
